import Mathlib

/-!
Verification of the lecture-to-audio pipeline core against its
natural-language specification.

The development shallowly embeds the relevant Python modules:

* `app/db.py`          - job record, transition table, `apply_transition`
* `app/main.py`        - startup recovery (re-enqueue query)
* `app/pipeline/worker.py` - the worker's failure handler
* `app/chunking.py`    - segmenter: `estimate_seconds`, `split_sentences`,
                         `generate_lecture_chunks`, `build_context_text`
* `app/pipeline/script_writer.py` - `simple_fallback_script`

Machine integers are modelled as `Int`/`Nat`; the float parameter
`words_per_second` is modelled as an exact rational (`ℚ`); timestamps are
modelled as `Nat` values supplied by the caller (`utcnow` is an external
input).  Raising an exception is modelled by an `Option`/error component
in the return value.
-/

namespace LectureToAudio

/-- `JobStatus` enum from `app/db.py`. -/
inductive JobStatus where
  | queued
  | extracting
  | scripting
  | tts
  | syncing
  | done
  | failed
deriving DecidableEq

/-- `Job` row from `app/db.py` (SQLModel table).  Timestamps are abstract
`Nat` instants; optional columns are `Option`s defaulting to `none` as in
the source. -/
structure Job where
  id : String
  status : JobStatus := JobStatus.queued
  created_at : Nat
  updated_at : Nat
  source_filename : Option String := none
  source_path : Option String := none
  user_error : Option String := none
  error : Option String := none
  traceback : Option String := none
  script_path : Option String := none
  audio_path : Option String := none
  duration_sec : Option Int := none
deriving DecidableEq

/-- `VALID_TRANSITIONS` dict from `app/db.py`: allowed target statuses per
current status. -/
def validTargets : JobStatus → List JobStatus
  | JobStatus.queued => [JobStatus.extracting, JobStatus.failed]
  | JobStatus.extracting => [JobStatus.scripting, JobStatus.failed]
  | JobStatus.scripting => [JobStatus.tts, JobStatus.done, JobStatus.failed]
  | JobStatus.tts => [JobStatus.syncing, JobStatus.failed]
  | JobStatus.syncing => [JobStatus.done, JobStatus.failed]
  | JobStatus.done => []
  | JobStatus.failed => []

/-- `is_valid_transition` from `app/db.py`: membership of `new` in the
allowed set for `current`. -/
def is_valid_transition (current new : JobStatus) : Bool :=
  decide (new ∈ validTargets current)

/-- The `ValueError("Invalid transition: ...")` raised by
`apply_transition`, carrying the offending pair. -/
inductive TransitionError where
  | invalid : JobStatus → JobStatus → TransitionError
deriving DecidableEq

/-- `apply_transition` from `app/db.py`.  The Python function mutates
`job` in place or raises; the embedding returns the raised error (if any)
together with the job state after the call.  The `raise` happens before
any mutation, so on error the job is returned untouched; on success
`status` is set and `updated_at` is refreshed to the current instant. -/
def apply_transition (job : Job) (new_status : JobStatus) (now : Nat) :
    Option TransitionError × Job :=
  if is_valid_transition job.status new_status = false then
    (some (TransitionError.invalid job.status new_status), job)
  else
    (none, { job with status := new_status, updated_at := now })

/-- The `except Exception` block of `Worker.process_job`
(`app/pipeline/worker.py`): try `apply_transition(job, failed)`; if that
raises, force-set `status = failed` and refresh `updated_at`; then record
the user-safe message, the exception repr and the traceback. -/
def handle_job_exception (job : Job) (exc_repr tb : String) (now : Nat) : Job :=
  let attempt := apply_transition job JobStatus.failed now
  let j :=
    match attempt.1 with
    | none => attempt.2
    | some _ => { job with status := JobStatus.failed, updated_at := now }
  { j with
      user_error := some "Processing failed. Please try again or check logs.",
      error := some exc_repr,
      traceback := some tb }

/-- The startup recovery query of `app/main.py` (`startup`): the ids that
get re-enqueued are exactly those of jobs whose status equals `queued`
(`select(Job).where(Job.status == JobStatus.queued)`), in store order. -/
def startup_reenqueue (jobs : List Job) : List String :=
  (jobs.filter (fun j => decide (j.status = JobStatus.queued))).map Job.id

/-! ### Text utilities of `app/chunking.py`

The Python string operations are embedded at the character-list level.
`Char.isWhitespace` models Python's whitespace test (the source data is
ASCII; exotic Unicode whitespace is out of scope), and `isWordChar`
models the `\w` class of the regex `\b\w+\b` (alphanumeric or
underscore). -/

/-- One character of the `\w` class used by `_WORD_RE = \b\w+\b`. -/
def isWordChar (c : Char) : Bool :=
  c.isAlphanum || c = '_'

/-- Maximal runs of characters that do not satisfy the separator
predicate `p`; the accumulator holds the current run reversed.  Used for
`str.split()` (runs of non-whitespace) and for `\w+` matching (runs of
word characters). -/
def splitRunsAux (p : Char → Bool) : List Char → List Char → List (List Char)
  | [], acc => if acc = [] then [] else [acc.reverse]
  | c :: rest, acc =>
    if p c then
      if acc = [] then splitRunsAux p rest []
      else acc.reverse :: splitRunsAux p rest []
    else splitRunsAux p rest (c :: acc)

/-- `text.split()` (Python, no argument): maximal whitespace-separated
runs. -/
def pySplitWs (cs : List Char) : List (List Char) :=
  splitRunsAux Char.isWhitespace cs []

/-- Interleave a single separator character between words, as
`sep.join(parts)` does. -/
def joinSep (sep : Char) : List (List Char) → List Char
  | [] => []
  | [w] => w
  | w :: x :: ws => w ++ sep :: joinSep sep (x :: ws)

/-- `_normalize_whitespace` from `app/chunking.py`:
`" ".join(text.strip().split())` (the `strip` is absorbed by `split()`,
which already drops leading and trailing whitespace). -/
def normalize_whitespace (text : String) : String :=
  String.mk (joinSep ' ' (pySplitWs text.data))

/-- `" ".join(parts)` on whole strings. -/
def joinSpaceStr (parts : List String) : String :=
  String.mk (joinSep ' ' (parts.map String.data))

/-- `str.strip()`: drop whitespace from both ends. -/
def pyStripChars (cs : List Char) : List Char :=
  ((cs.dropWhile Char.isWhitespace).reverse.dropWhile Char.isWhitespace).reverse

/-- `str.strip()` on strings. -/
def pyStrip (s : String) : String :=
  String.mk (pyStripChars s.data)

/-- `c` terminates a sentence for the regex `(?<=[.!?])\s+`. -/
def isSentenceEnd (c : Char) : Bool :=
  c = '.' || c = '!' || c = '?'

/-- The split performed by `_SENTENCE_RE.split(cleaned)`: a boundary is a
maximal whitespace run whose preceding character is `.`, `!` or `?`; the
whole run is consumed, anything else stays in the current part.  The
accumulator holds the current part reversed; the flag records that the
scanner is inside the remainder of a consumed whitespace run. -/
def sentenceSplitAux : List Char → List Char → Bool → List (List Char)
  | [], acc, _ => [acc.reverse]
  | c :: rest, acc, skipping =>
    if skipping && c.isWhitespace then
      sentenceSplitAux rest acc true
    else if c.isWhitespace && (match acc with | p :: _ => isSentenceEnd p | [] => false) then
      acc.reverse :: sentenceSplitAux rest [] true
    else
      sentenceSplitAux rest (c :: acc) false

/-- `split_sentences` from `app/chunking.py`: normalize, split at
sentence boundaries, strip each part, drop empties. -/
def split_sentences (text : String) : List String :=
  let cleaned := normalize_whitespace text
  if cleaned = "" then []
  else
    ((sentenceSplitAux cleaned.data [] false).map (fun p => String.mk (pyStripChars p))).filter
      (fun p => p ≠ "")

/-- `len(_WORD_RE.findall(text))`: the number of maximal `\w` runs. -/
def countWords (text : String) : Nat :=
  (splitRunsAux (fun c => !(isWordChar c)) text.data []).length

/-- Python's `round` (banker's rounding, half to even) applied to the
exact rational `a / b` with `b > 0`. -/
def roundHalfEvenRatio (a b : ℤ) : ℤ :=
  let f := Int.fdiv a b
  let r := a - f * b
  if 2 * r < b then f
  else if b < 2 * r then f + 1
  else if f % 2 = 0 then f else f + 1

/-- `estimate_seconds` from `app/chunking.py`: zero for a word count of
zero, otherwise `max(1, int(round(words / words_per_second)))`.  The
float rate is an exact rational and `words / wps` is computed as the
integer ratio `(words * wps.den) / wps.num`. -/
def estimate_seconds (text : String) (words_per_second : ℚ) : ℤ :=
  let words := countWords text
  if words = 0 then 0
  else max 1 (roundHalfEvenRatio ((words : ℤ) * (words_per_second.den : ℤ))
    words_per_second.num)

/-! ### Context-window retrieval (`build_context_text`) -/

/-- A chunk dict as loaded back from the chunks JSON file
(`load_chunks`); `build_context_text` reads the keys `text` and
`approx_seconds` with `dict.get`, so both are optional here. -/
structure CtxChunk where
  text : Option String := none
  approx_seconds : Option Int := none
deriving DecidableEq

/-- `chunk.get("text") or ""`: a missing key gives `""`, and the falsy
`""` is mapped to itself, so this is `getD ""`. -/
def ctxText (c : CtxChunk) : String :=
  c.text.getD ""

/-- `int(chunk.get("approx_seconds") or 0)`: a missing key gives `0`,
and the falsy `0` maps to itself, so this is `getD 0`. -/
def ctxSecs (c : CtxChunk) : Int :=
  c.approx_seconds.getD 0

/-- The `while cursor >= 0 and total < window_seconds` loop of
`build_context_text`.  The cursor is the non-negative part of the Python
cursor (the `cursor < 0` exit is the `0` case after processing).
`chunks[cursor]` out of range raises `IndexError`, modelled by `none`.
Collected texts are in visit order (descending index), as in the source
before the final `reverse()`. -/
def build_context_loop (chunks : List CtxChunk) (window : Int) :
    Nat → Int → List String → Option (List String × Int)
  | 0, total, collected =>
    if window ≤ total then some (collected, total)
    else
      match chunks.get? 0 with
      | none => none
      | some chunk =>
        some (if ctxText chunk = "" then collected else collected ++ [ctxText chunk],
          total + ctxSecs chunk)
  | c + 1, total, collected =>
    if window ≤ total then some (collected, total)
    else
      match chunks.get? (c + 1) with
      | none => none
      | some chunk =>
        build_context_loop chunks window c (total + ctxSecs chunk)
          (if ctxText chunk = "" then collected else collected ++ [ctxText chunk])

/-- `build_context_text` from `app/chunking.py`: `("", 0)` for
`index <= 0`, otherwise the backward loop from `index - 1`, then the
collected texts reversed into forward order, joined by newline and
stripped.  `none` models the `IndexError` raised when the loop reads past
the end of `chunks`. -/
def build_context_text (chunks : List CtxChunk) (index window : Int) :
    Option (String × Int) :=
  if index ≤ 0 then some ("", 0)
  else
    match build_context_loop chunks window (index - 1).toNat 0 [] with
    | none => none
    | some (collected, total) =>
      some (pyStrip (String.mk (joinSep '\n' (collected.reverse.map String.data))), total)

/-- Modelled from the claim/spec wording of the context walk: starting at
`index - 1`, visit chunks backward, stop as soon as the accumulated
duration reaches the window (checking before each visit, so the
boundary-crossing chunk is included) or index 0 is passed; the result
lists the visited chunks' non-empty texts in forward (original) order
together with the accumulated seconds. -/
def context_spec_walk (chunks : List CtxChunk) (window : Int) :
    Nat → Int → List String × Int
  | 0, sofar =>
    if window ≤ sofar then ([], sofar)
    else
      let chunk := (chunks.get? 0).getD {}
      (if ctxText chunk = "" then [] else [ctxText chunk], sofar + ctxSecs chunk)
  | c + 1, sofar =>
    if window ≤ sofar then ([], sofar)
    else
      let chunk := (chunks.get? (c + 1)).getD {}
      let r := context_spec_walk chunks window c (sofar + ctxSecs chunk)
      (r.1 ++ (if ctxText chunk = "" then [] else [ctxText chunk]), r.2)

/-- The spec-side contract for `context(chunks, index, window)`: empty
for `index <= 0`, otherwise the backward walk joined by newline and
trimmed. -/
def context_spec (chunks : List CtxChunk) (index window : Int) : String × Int :=
  if index ≤ 0 then ("", 0)
  else
    let r := context_spec_walk chunks window (index - 1).toNat 0
    (pyStrip (String.mk (joinSep '\n' (r.1.map String.data))), r.2)

/-- The four-chunk fixture from the claim (and
`tests/test_chunk_context.py`). -/
def sample_chunks : List CtxChunk :=
  [{ text := some "alpha", approx_seconds := some 10 },
   { text := some "bravo", approx_seconds := some 12 },
   { text := some "charlie", approx_seconds := some 8 },
   { text := some "delta", approx_seconds := some 15 }]

/-- A single-chunk list, used to exercise the out-of-range path. -/
def single_chunk_example : List CtxChunk :=
  [{ text := some "alpha", approx_seconds := some 10 }]

/-! ### Lecture script data model (`app/schemas.py`) -/

/-- `SpokenMath` from `app/schemas.py`. -/
structure SpokenMath where
  latex : String
  spoken : String
  intuition : Option String := none
deriving DecidableEq

/-- `FigureNarration` from `app/schemas.py`. -/
structure FigureNarration where
  figure_id : Option String := none
  description : String
  chart_type : Option String := none
  axes : Option String := none
  trend : Option String := none
  significance : Option String := none
deriving DecidableEq

/-- `Chapter` from `app/schemas.py`. -/
structure Chapter where
  name : String
  narration : String
  spoken_math : List SpokenMath := []
  figure_narration : List FigureNarration := []
deriving DecidableEq

/-- `LectureScript` from `app/schemas.py`. -/
structure LectureScript where
  title : String
  source_type : String
  duration_estimate_sec : Int
  chapters : List Chapter
  final_recap : String
deriving DecidableEq

/-- `LectureChunk` from `app/schemas.py`.  `chunk_id` is a `Nat` because
the generator assigns it from a counter starting at 0. -/
structure LectureChunk where
  chunk_id : Nat
  approx_seconds : Int
  text : String
  spoken_math : Option (List String) := none
  section_name : Option String := none
  source_refs : Option (List String) := none
deriving DecidableEq

/-! ### Segmenter (`generate_lecture_chunks` and helpers) -/

/-- One optional labelled sentence of `_figure_to_text`: Python
`if fig.axes: sentences.append(f"Axes: ...")`, where `None` and `""` are
falsy. -/
def optLabeled (label : String) (o : Option String) : List String :=
  match o with
  | some v => if v ≠ "" then [label ++ v ++ "."] else []
  | none => []

/-- `_figure_to_text` from `app/chunking.py`: one joined sentence group
per figure narration. -/
def figure_to_text (ch : Chapter) : List String :=
  ch.figure_narration.map (fun fig =>
    joinSpaceStr ([fig.description] ++ optLabeled "Axes: " fig.axes ++
      optLabeled "Trend: " fig.trend ++ optLabeled "Significance: " fig.significance))

/-- `_spoken_math_lines` from `app/chunking.py`: spoken renderings and
(truthy) intuitions, stripped, empties dropped. -/
def spoken_math_lines (ch : Chapter) : List String :=
  let lines := (ch.spoken_math.map (fun item =>
    (if item.spoken ≠ "" then [item.spoken] else []) ++
    (match item.intuition with
     | some i => if i ≠ "" then [i] else []
     | none => []))).flatten
  (lines.filter (fun l => decide (l ≠ "" ∧ pyStrip l ≠ ""))).map pyStrip

/-- One element yielded by `_iter_sections` for a chapter: name, the
normalized narration text (chapter narration joined with the figure
texts, empty parts dropped), and the spoken-math lines. -/
def chapter_section (ch : Chapter) : String × String × List String :=
  (ch.name,
   normalize_whitespace
     (joinSpaceStr ((ch.narration :: figure_to_text ch).filter (fun p => decide (p ≠ "")))),
   spoken_math_lines ch)

/-- The trailing `Recap` element of `_iter_sections`, present when
`final_recap` is truthy and normalizes to a non-empty text. -/
def recap_sections (script : LectureScript) : List (String × String × List String) :=
  if script.final_recap ≠ "" then
    if normalize_whitespace script.final_recap ≠ "" then
      [("Recap", normalize_whitespace script.final_recap, [])]
    else []
  else []

/-- `_iter_sections` from `app/chunking.py`. -/
def iter_sections (script : LectureScript) : List (String × String × List String) :=
  script.chapters.map chapter_section ++ recap_sections script

/-- The narration chunk appended by `generate_lecture_chunks` when a
buffer is closed: text is the normalized joined buffer, duration is the
estimate of that text. -/
def mk_narration_chunk (cid : Nat) (current : List String) (wps : ℚ) (name : String) :
    LectureChunk :=
  let text := normalize_whitespace (joinSpaceStr current)
  { chunk_id := cid, approx_seconds := estimate_seconds text wps, text := text,
    spoken_math := none, section_name := some name, source_refs := none }

/-- The sentence-accumulation loop of `generate_lecture_chunks`: append
each sentence to the buffer, close the buffer as a chunk when its
estimated duration reaches the target, and flush any non-empty remainder
at section end. -/
def narration_loop (name : String) (wps : ℚ) (target : Int) :
    List String → List String → Nat → List LectureChunk
  | [], current, cid =>
    if current = [] then [] else [mk_narration_chunk cid current wps name]
  | s :: rest, current, cid =>
    if target ≤ estimate_seconds (joinSpaceStr (current ++ [s])) wps then
      mk_narration_chunk cid (current ++ [s]) wps name ::
        narration_loop name wps target rest [] (cid + 1)
    else
      narration_loop name wps target rest (current ++ [s]) cid

/-- The spoken-math chunk appended by `generate_lecture_chunks` after a
section's narration chunks. -/
def math_chunk (cid : Nat) (math_lines : List String) (wps : ℚ) (name : String) :
    LectureChunk :=
  let math_text := normalize_whitespace (joinSpaceStr math_lines)
  { chunk_id := cid, approx_seconds := estimate_seconds math_text wps, text := math_text,
    spoken_math := some math_lines, section_name := some name, source_refs := none }

/-- The narration half of one section iteration: the `if section_text:`
guard around the sentence-accumulation loop. -/
def narration_part (wps : ℚ) (target : Int) (sec : String × String × List String)
    (cid : Nat) : List LectureChunk :=
  if sec.2.1 ≠ "" then narration_loop sec.1 wps target (split_sentences sec.2.1) [] cid
  else []

/-- The spoken-math half of one section iteration: the `if math_lines:`
and `if math_text:` guards around the single math chunk, receiving the
counter value after the narration chunks. -/
def math_part (wps : ℚ) (sec : String × String × List String) (cid : Nat) :
    List LectureChunk :=
  if sec.2.2 ≠ [] then
    if normalize_whitespace (joinSpaceStr sec.2.2) ≠ "" then
      [math_chunk cid sec.2.2 wps sec.1]
    else []
  else []

/-- The per-section body of the `for section_name, section_text,
math_lines in _iter_sections(script)` loop: narration chunks followed by
at most one math chunk. -/
def section_chunks (wps : ℚ) (target : Int) (sec : String × String × List String)
    (cid : Nat) : List LectureChunk :=
  narration_part wps target sec cid ++
    math_part wps sec (cid + (narration_part wps target sec cid).length)

/-- The outer section loop of `generate_lecture_chunks`, threading the
`chunk_id` counter. -/
def generate_aux (wps : ℚ) (target : Int) :
    List (String × String × List String) → Nat → List LectureChunk
  | [], _ => []
  | sec :: rest, cid =>
    section_chunks wps target sec cid ++
      generate_aux wps target rest (cid + (section_chunks wps target sec cid).length)

/-- The two chunking defaults of `Settings` (`app/config.py`):
`chunk_target_seconds = 15` and `chunk_words_per_second = 2.5`. -/
structure ChunkSettings where
  chunk_target_seconds : Int := 15
  chunk_words_per_second : ℚ := mkRat 5 2
deriving DecidableEq

/-- Python `x or default` on an optional int argument (`None` and `0`
are falsy). -/
def pyOrInt (o : Option Int) (d : Int) : Int :=
  match o with
  | some v => if v ≠ 0 then v else d
  | none => d

/-- Python `x or default` on an optional rate argument (`None` and `0.0`
are falsy). -/
def pyOrRat (o : Option ℚ) (d : ℚ) : ℚ :=
  match o with
  | some v => if v ≠ 0 then v else d
  | none => d

/-- `generate_lecture_chunks` from `app/chunking.py`: resolve the target
and rate against the settings defaults, then run the section loop with
the chunk counter starting at 0. -/
def generate_lecture_chunks (script : LectureScript) (target_seconds : Option Int)
    (words_per_second : Option ℚ) (settings : ChunkSettings) : List LectureChunk :=
  generate_aux (pyOrRat words_per_second settings.chunk_words_per_second)
    (pyOrInt target_seconds settings.chunk_target_seconds) (iter_sections script) 0

/-- A canonical byte rendering of one chunk (stands in for the JSON
serialization of `write_chunks`; equal chunk values serialize to equal
bytes). -/
def serialize_chunk (c : LectureChunk) : String :=
  toString c.chunk_id ++ "|" ++ toString c.approx_seconds ++ "|" ++ c.text ++ "|" ++
    (match c.spoken_math with
     | some ls => String.intercalate ";" ls
     | none => "") ++ "|" ++ c.section_name.getD ""

/-- Byte rendering of a chunk sequence. -/
def serialize_chunks (cs : List LectureChunk) : String :=
  String.intercalate "\n" (cs.map serialize_chunk)

/-! ### Script-stage fallback (`app/pipeline/script_writer.py`) -/

/-- One extraction chunk dict as consumed by `simple_fallback_script`
(only `chunk_summary` is read, via `dict.get`). -/
structure ExtractChunk where
  chunk_summary : Option String := none
deriving DecidableEq

/-- `ch.get("chunk_summary") or "Summary missing."`. -/
def summary_or_default (o : Option String) : String :=
  match o with
  | some s => if s ≠ "" then s else "Summary missing."
  | none => "Summary missing."

/-- The `for idx, ch in enumerate(chunks, start=1)` loop of
`simple_fallback_script`: one chapter per extraction chunk, named
`Section {idx}`. -/
def fallback_chapters : Nat → List ExtractChunk → List Chapter
  | _, [] => []
  | idx, ch :: rest =>
    { name := "Section " ++ toString idx,
      narration := summary_or_default ch.chunk_summary,
      spoken_math := [], figure_narration := [] } :: fallback_chapters (idx + 1) rest

/-- `simple_fallback_script` from `app/pipeline/script_writer.py`. -/
def simple_fallback_script (chunks : List ExtractChunk) (title_hint : String) :
    LectureScript :=
  let chapters := fallback_chapters 1 chunks
  { title := if title_hint ≠ "" then title_hint else "Lecture",
    source_type := "pdf",
    duration_estimate_sec := max 60 (60 * (chapters.length : Int)),
    chapters := chapters,
    final_recap := "We covered the main ideas from the document." }

/-- The `try merge_chunks_to_script ... except Exception:
simple_fallback_script` block of `Worker.process_job`: the script stage
never propagates the generation/validation error - it falls back. -/
def script_stage (merge_result : Except String LectureScript)
    (chunks : List ExtractChunk) (title : String) : LectureScript :=
  match merge_result with
  | Except.ok s => s
  | Except.error _ => simple_fallback_script chunks title

/-- A chapter with empty narration but a figure narration (concrete
instance for the C7 counterexample). -/
def figure_only_chapter : Chapter :=
  { name := "Shapes", narration := "",
    figure_narration := [{ description := "The curve rises steadily." }] }

/-- A one-chapter script around `figure_only_chapter`. -/
def figure_only_script : LectureScript :=
  { title := "t", source_type := "pdf", duration_estimate_sec := 60,
    chapters := [figure_only_chapter], final_recap := "" }

/-- A chapter with narration and one spoken-math entry (concrete
instance for witnesses). -/
def math_chapter_example : Chapter :=
  { name := "Algebra", narration := "We add numbers.",
    spoken_math := [{ latex := "a+b", spoken := "a plus b",
                      intuition := some "combining quantities" }] }

/-- A one-chapter script around `math_chapter_example`. -/
def math_script_example : LectureScript :=
  { title := "m", source_type := "pdf", duration_estimate_sec := 60,
    chapters := [math_chapter_example], final_recap := "" }

/-- A two-element extraction list, the second entry without a summary
(concrete instance for witnesses). -/
def extract_chunks_example : List ExtractChunk :=
  [{ chunk_summary := some "First summary" }, { chunk_summary := none }]

/-- The transition table exactly as enumerated by claim C1 (and §4.2 of
the spec, with the source's status names).  Written from the claim's
words, to be compared with the source's `validTargets`. -/
def claim_transition_table : List (JobStatus × JobStatus) :=
  [(JobStatus.queued, JobStatus.extracting), (JobStatus.queued, JobStatus.failed),
   (JobStatus.extracting, JobStatus.scripting), (JobStatus.extracting, JobStatus.failed),
   (JobStatus.scripting, JobStatus.tts), (JobStatus.scripting, JobStatus.done),
   (JobStatus.scripting, JobStatus.failed),
   (JobStatus.tts, JobStatus.syncing), (JobStatus.tts, JobStatus.failed),
   (JobStatus.syncing, JobStatus.done), (JobStatus.syncing, JobStatus.failed)]

/-- A job sitting in `queued` (concrete instance for witnesses). -/
def job_queued_example : Job :=
  { id := "job-queued", status := JobStatus.queued, created_at := 0, updated_at := 0 }

/-- A job sitting in `done` (concrete instance for counterexamples). -/
def job_done_example : Job :=
  { id := "job-done", status := JobStatus.done, created_at := 0, updated_at := 3 }

/-- A job left in `extracting` (concrete instance for counterexamples). -/
def job_extracting_example : Job :=
  { id := "job-extracting", status := JobStatus.extracting, created_at := 0, updated_at := 1 }

lemma valid_iff_claim_table (a b : JobStatus) :
    is_valid_transition a b = true ↔ (a, b) ∈ claim_transition_table := by
  cases a <;> cases b <;> decide

/-- Claim C1: `apply_transition(job, new_status)` succeeds exactly when
`(job.status, new_status)` is an edge of the transition table
(queued→extracting/failed, extracting→scripting/failed,
scripting→tts/done/failed, tts→syncing/failed, syncing→done/failed,
done/failed→nothing); on success it sets `status := new_status` and
refreshes `updated_at`; otherwise it raises an invalid-transition error
and leaves the job unchanged. -/
theorem apply_transition_matches_table (job : Job) (s : JobStatus) (now : Nat) :
    ((apply_transition job s now).1 = none ↔ (job.status, s) ∈ claim_transition_table) ∧
    ((job.status, s) ∈ claim_transition_table →
      apply_transition job s now = (none, { job with status := s, updated_at := now })) ∧
    ((job.status, s) ∉ claim_transition_table →
      apply_transition job s now = (some (TransitionError.invalid job.status s), job)) := by
  have htab := valid_iff_claim_table job.status s
  by_cases hv : is_valid_transition job.status s = true
  · refine ⟨?_, fun _ => ?_, fun hmem => absurd (htab.mp hv) hmem⟩
    · simp [apply_transition, hv]
      exact htab.mp hv
    · simp [apply_transition, hv]
  · have hv' : is_valid_transition job.status s = false := by
      cases h : is_valid_transition job.status s
      · rfl
      · exact absurd h hv
    refine ⟨?_, fun hmem => absurd (htab.mpr hmem) hv, fun _ => ?_⟩
    · simp [apply_transition, hv']
      intro hmem
      exact absurd (htab.mpr hmem) hv
    · simp [apply_transition, hv']

/-- Witness for C1: from `queued`, moving to `extracting` succeeds and
moving to `done` fails. -/
theorem apply_transition_matches_table_witness :
    apply_transition job_queued_example JobStatus.extracting 5 =
      (none, { job_queued_example with status := JobStatus.extracting, updated_at := 5 }) ∧
    apply_transition job_queued_example JobStatus.done 5 =
      (some (TransitionError.invalid JobStatus.queued JobStatus.done), job_queued_example) := by
  refine ⟨(apply_transition_matches_table job_queued_example JobStatus.extracting 5).2.1
      (by decide), ?_⟩
  have h := (apply_transition_matches_table job_queued_example JobStatus.done 5).2.2 (by decide)
  simpa [job_queued_example] using h

/-- Claim C10: `apply_transition` is atomic on error: when the transition
is invalid the call raises and the job is returned with `status` and
`updated_at` (indeed every field) exactly as before the call. -/
theorem apply_transition_invalid_preserves_job (job : Job) (s : JobStatus) (now : Nat)
    (h : is_valid_transition job.status s = false) :
    apply_transition job s now = (some (TransitionError.invalid job.status s), job) ∧
    (apply_transition job s now).2.status = job.status ∧
    (apply_transition job s now).2.updated_at = job.updated_at := by
  simp [apply_transition, h]

/-- Witness for C10: `queued → done` is invalid and leaves the concrete
job untouched. -/
theorem apply_transition_invalid_preserves_job_witness :
    apply_transition job_queued_example JobStatus.done 9 =
      (some (TransitionError.invalid JobStatus.queued JobStatus.done), job_queued_example) ∧
    (apply_transition job_queued_example JobStatus.done 9).2.status = JobStatus.queued ∧
    (apply_transition job_queued_example JobStatus.done 9).2.updated_at = 0 := by
  have h := apply_transition_invalid_preserves_job job_queued_example JobStatus.done 9 (by decide)
  exact ⟨h.1, h.2.1, h.2.2⟩

/-- Counterexample to claim C5 as stated: the Worker's exception handler
does change the status of a job that is already `done` - when
`apply_transition(job, failed)` raises, the handler force-sets
`status = failed`, so a `done` job becomes `failed`. -/
theorem worker_handler_changes_done_status :
    job_done_example.status = JobStatus.done ∧
    (handle_job_exception job_done_example "RuntimeError" "trace" 7).status =
      JobStatus.failed ∧
    JobStatus.done ≠ JobStatus.failed := by
  decide

/-- Claim C5 (amended): `done` and `failed` are terminal for
`apply_transition` (every call from them raises and preserves the
status), but the Worker's exception handler force-sets the status to
`failed` when a late exception lands on a terminal job: a `failed` job
stays `failed`, while a `done` job is changed to `failed`. -/
theorem terminal_status_behavior (job : Job) (s : JobStatus) (now : Nat) (e tb : String)
    (h : job.status = JobStatus.done ∨ job.status = JobStatus.failed) :
    (apply_transition job s now).1 = some (TransitionError.invalid job.status s) ∧
    (apply_transition job s now).2.status = job.status ∧
    (handle_job_exception job e tb now).status = JobStatus.failed := by
  have hv : is_valid_transition job.status s = false := by
    rcases h with h | h <;> simp [is_valid_transition, validTargets, h]
  have hv' : is_valid_transition job.status JobStatus.failed = false := by
    rcases h with h | h <;> simp [is_valid_transition, validTargets, h]
  refine ⟨by simp [apply_transition, hv], by simp [apply_transition, hv], ?_⟩
  simp [handle_job_exception, apply_transition, hv']

/-- Witness for C5 (amended), at a concrete `done` job. -/
theorem terminal_status_behavior_witness :
    (apply_transition job_done_example JobStatus.tts 7).1 =
      some (TransitionError.invalid JobStatus.done JobStatus.tts) ∧
    (apply_transition job_done_example JobStatus.tts 7).2.status = JobStatus.done ∧
    (handle_job_exception job_done_example "boom" "trace" 7).status = JobStatus.failed := by
  have h := terminal_status_behavior job_done_example JobStatus.tts 7 "boom" "trace"
    (Or.inl (by decide))
  exact ⟨h.1, h.2.1, h.2.2⟩

/-- Counterexample to claim C4 as stated: a job left in `extracting` at
process start is not re-enqueued - the startup query only selects jobs in
status `queued`. -/
theorem startup_skips_extracting_job :
    job_extracting_example.status = JobStatus.extracting ∧
    startup_reenqueue [job_extracting_example] = [] := by
  decide

/-- Claim C4 (amended): at process start exactly the jobs found in status
`queued` are re-enqueued by id; jobs in the other non-terminal statuses
(`extracting`, `scripting`, `tts`, `syncing`) are not re-enqueued. -/
theorem startup_reenqueues_queued_only (jobs : List Job) (i : String) :
    i ∈ startup_reenqueue jobs ↔ ∃ j ∈ jobs, j.id = i ∧ j.status = JobStatus.queued := by
  simp only [startup_reenqueue, List.mem_map, List.mem_filter, decide_eq_true_eq]
  constructor
  · rintro ⟨j, ⟨hj, hq⟩, hid⟩
    exact ⟨j, hj, hid, hq⟩
  · rintro ⟨j, hj, hid, hq⟩
    exact ⟨j, ⟨hj, hq⟩, hid⟩

/-- Counterexample to claim C3 as stated: `"!!!"` is a non-empty text
whose word count is zero, and `estimate_seconds` returns 0 on it - so
"estimate ≥ 1 for every non-empty text" and "word count zero only for
fully empty text" both fail. -/
theorem estimate_seconds_nonempty_zero :
    ("!!!" : String) ≠ "" ∧ countWords "!!!" = 0 ∧
    estimate_seconds "!!!" (mkRat 5 2) = 0 := by
  decide

/-- Claim C3 (amended): `estimate_seconds(text, wps)` is at least 1 for
every text containing at least one word (a maximal `\w+` run), and is 0
exactly when the word count is 0 - which holds for the empty text but
also for non-empty texts without word characters. -/
theorem estimate_seconds_spec (text : String) (wps : ℚ) :
    (countWords text ≠ 0 → 1 ≤ estimate_seconds text wps) ∧
    (countWords text = 0 → estimate_seconds text wps = 0) ∧
    (text = "" → estimate_seconds text wps = 0) := by
  refine ⟨fun h => ?_, fun h => by simp [estimate_seconds, h], fun h => ?_⟩
  · simp only [estimate_seconds, h, if_false]
    exact le_max_left _ _
  · subst h
    have h0 : countWords "" = 0 := rfl
    simp [estimate_seconds, h0]

/-- Witness for C3 (amended): a two-word text estimates at least one
second; the empty text estimates zero. -/
theorem estimate_seconds_spec_witness :
    (countWords "hello world" ≠ 0 ∧ 1 ≤ estimate_seconds "hello world" (mkRat 5 2)) ∧
    estimate_seconds "" (mkRat 5 2) = 0 :=
  ⟨⟨by decide, (estimate_seconds_spec "hello world" (mkRat 5 2)).1 (by decide)⟩,
    (estimate_seconds_spec "" (mkRat 5 2)).2.2 rfl⟩

lemma build_context_loop_eq_walk (chunks : List CtxChunk) (window : Int) :
    ∀ (cursor : Nat) (total : Int) (collected : List String),
      cursor < chunks.length →
      build_context_loop chunks window cursor total collected =
        some (collected ++ (context_spec_walk chunks window cursor total).1.reverse,
          (context_spec_walk chunks window cursor total).2) := by
  intro cursor
  induction cursor with
  | zero =>
    intro total collected h
    rw [build_context_loop, context_spec_walk]
    by_cases hw : window ≤ total
    · simp [hw]
    · rw [List.get?_eq_get h]
      by_cases ht : ctxText chunks[0] = "" <;> simp [hw, ht]
  | succ c ih =>
    intro total collected h
    have hc : c < chunks.length := Nat.lt_of_succ_lt h
    rw [build_context_loop, context_spec_walk]
    by_cases hw : window ≤ total
    · simp [hw]
    · rw [List.get?_eq_get h]
      by_cases ht : ctxText chunks[c + 1] = "" <;>
        simp [hw, ht, ih _ _ hc, List.append_assoc]

/-- Counterexample to claim C2 as stated: with one chunk, `index = 2`
and a positive window, the loop reads `chunks[1]`, which raises
`IndexError` instead of returning a pair. -/
theorem build_context_text_out_of_range :
    build_context_text single_chunk_example 2 30 = none := by
  decide

/-- Claim C2 (amended): `build_context_text(chunks, index, window)`
returns `("", 0)` whenever `index <= 0`; for `0 < index <= len(chunks)`
it returns the backward-walk context described by the claim (the
boundary-crossing chunk included, texts rejoined in forward order by
newline and trimmed, together with the accumulated seconds) - for an
index beyond the end of the list the lookup raises `IndexError` instead.
On the fixture `[(10,"alpha"), (12,"bravo"), (8,"charlie"),
(15,"delta")]` at index 3 with window 20 the result is
`("bravo\ncharlie", 20)`. -/
theorem build_context_text_spec :
    (∀ (chunks : List CtxChunk) (index window : Int), index ≤ 0 →
      build_context_text chunks index window = some ("", 0)) ∧
    (∀ (chunks : List CtxChunk) (index window : Int),
      0 < index → index ≤ (chunks.length : Int) →
      build_context_text chunks index window = some (context_spec chunks index window)) ∧
    build_context_text sample_chunks 3 20 = some ("bravo\ncharlie", 20) := by
  refine ⟨fun chunks index window h => by simp [build_context_text, h], ?_, by decide⟩
  intro chunks index window h0 hlen
  have hnot : ¬ index ≤ 0 := not_le.mpr h0
  have hcur : (index - 1).toNat < chunks.length := by
    have h1 : (0 : Int) ≤ index - 1 := by omega
    have h2 : index - 1 < (chunks.length : Int) := by omega
    omega
  rw [build_context_text, context_spec, if_neg hnot, if_neg hnot,
    build_context_loop_eq_walk chunks window _ 0 [] hcur]
  simp

/-- Witness for C2 (amended): the in-range branch evaluated on the
fixture at index 3, window 20. -/
theorem build_context_text_spec_witness :
    build_context_text sample_chunks 3 20 = some (context_spec sample_chunks 3 20) :=
  build_context_text_spec.2.1 sample_chunks 3 20 (by decide) (by decide)

lemma narration_loop_ids (name : String) (wps : ℚ) (target : Int) :
    ∀ (ss cur : List String) (cid : Nat),
      (narration_loop name wps target ss cur cid).map LectureChunk.chunk_id =
        List.range' cid (narration_loop name wps target ss cur cid).length := by
  intro ss
  induction ss with
  | nil =>
    intro cur cid
    by_cases h : cur = [] <;> simp [narration_loop, h, mk_narration_chunk, List.range']
  | cons s rest ih =>
    intro cur cid
    by_cases h : target ≤ estimate_seconds (joinSpaceStr (cur ++ [s])) wps <;>
      simp [narration_loop, h, mk_narration_chunk, ih, List.range']

lemma chunk_ids_append (xs ys : List LectureChunk) (cid : Nat)
    (hx : xs.map LectureChunk.chunk_id = List.range' cid xs.length)
    (hy : ys.map LectureChunk.chunk_id = List.range' (cid + xs.length) ys.length) :
    (xs ++ ys).map LectureChunk.chunk_id = List.range' cid (xs ++ ys).length := by
  have h := List.range'_append cid xs.length ys.length 1
  simp only [one_mul] at h
  rw [List.map_append, hx, hy, List.length_append, Nat.add_comm xs.length ys.length, ← h]

lemma narration_part_ids (wps : ℚ) (target : Int) (sec : String × String × List String)
    (cid : Nat) :
    (narration_part wps target sec cid).map LectureChunk.chunk_id =
      List.range' cid (narration_part wps target sec cid).length := by
  unfold narration_part
  by_cases h : sec.2.1 ≠ "" <;> simp [h, narration_loop_ids]

lemma math_part_ids (wps : ℚ) (sec : String × String × List String) (cid : Nat) :
    (math_part wps sec cid).map LectureChunk.chunk_id =
      List.range' cid (math_part wps sec cid).length := by
  unfold math_part
  by_cases h1 : sec.2.2 ≠ [] <;>
    by_cases h2 : normalize_whitespace (joinSpaceStr sec.2.2) ≠ "" <;>
      simp [h1, h2, math_chunk, List.range']

lemma section_chunks_ids (wps : ℚ) (target : Int) (sec : String × String × List String)
    (cid : Nat) :
    (section_chunks wps target sec cid).map LectureChunk.chunk_id =
      List.range' cid (section_chunks wps target sec cid).length :=
  chunk_ids_append _ _ _ (narration_part_ids wps target sec cid)
    (math_part_ids wps sec _)

lemma generate_aux_ids (wps : ℚ) (target : Int) :
    ∀ (secs : List (String × String × List String)) (cid : Nat),
      (generate_aux wps target secs cid).map LectureChunk.chunk_id =
        List.range' cid (generate_aux wps target secs cid).length := by
  intro secs
  induction secs with
  | nil => intro cid; simp [generate_aux]
  | cons sec rest ih =>
    intro cid
    rw [generate_aux]
    exact chunk_ids_append _ _ _ (section_chunks_ids wps target sec cid) (ih _)

/-- Claim C6: for every script and parameters, the chunk sequence
produced by `generate_lecture_chunks` carries dense zero-based ids (the
chunk at position `i` has `chunk_id = i`), hence the ids are unique
within the script. -/
theorem generate_chunk_ids_dense (script : LectureScript) (ts : Option Int)
    (ws : Option ℚ) (st : ChunkSettings) :
    (generate_lecture_chunks script ts ws st).map LectureChunk.chunk_id =
      List.range (generate_lecture_chunks script ts ws st).length ∧
    ((generate_lecture_chunks script ts ws st).map LectureChunk.chunk_id).Nodup := by
  have h : (generate_lecture_chunks script ts ws st).map LectureChunk.chunk_id =
      List.range' 0 (generate_lecture_chunks script ts ws st).length :=
    generate_aux_ids _ _ (iter_sections script) 0
  rw [List.range_eq_range']
  exact ⟨h, by rw [h, ← List.range_eq_range']; exact List.nodup_range _⟩

/-- Claim C9: the Segmenter is deterministic - two runs of
`generate_lecture_chunks` on the same script and parameters produce
equal chunk sequences, hence byte-identical serializations. -/
theorem segmenter_deterministic (script : LectureScript) (ts : Option Int)
    (ws : Option ℚ) (st : ChunkSettings) (c1 c2 : List LectureChunk)
    (h1 : c1 = generate_lecture_chunks script ts ws st)
    (h2 : c2 = generate_lecture_chunks script ts ws st) :
    c1 = c2 ∧ serialize_chunks c1 = serialize_chunks c2 := by
  subst h1; subst h2; exact ⟨rfl, rfl⟩

/-- Witness for C9: two runs on the concrete one-chapter script agree. -/
theorem segmenter_deterministic_witness :
    generate_lecture_chunks math_script_example (some 15) (some (mkRat 5 2)) {} =
      generate_lecture_chunks math_script_example (some 15) (some (mkRat 5 2)) {} ∧
    serialize_chunks
        (generate_lecture_chunks math_script_example (some 15) (some (mkRat 5 2)) {}) =
      serialize_chunks
        (generate_lecture_chunks math_script_example (some 15) (some (mkRat 5 2)) {}) :=
  segmenter_deterministic math_script_example (some 15) (some (mkRat 5 2)) {} _ _ rfl rfl

lemma fallback_chapters_length :
    ∀ (start : Nat) (chunks : List ExtractChunk),
      (fallback_chapters start chunks).length = chunks.length := by
  intro start chunks
  induction chunks generalizing start with
  | nil => simp [fallback_chapters]
  | cons ch rest ih => simp [fallback_chapters, ih]

lemma fallback_chapters_get :
    ∀ (start : Nat) (chunks : List ExtractChunk) (k : Nat) (hk : k < chunks.length)
      (hk2 : k < (fallback_chapters start chunks).length),
      (fallback_chapters start chunks).get ⟨k, hk2⟩ =
        { name := "Section " ++ toString (start + k),
          narration := summary_or_default (chunks.get ⟨k, hk⟩).chunk_summary,
          spoken_math := [], figure_narration := [] } := by
  intro start chunks
  induction chunks generalizing start with
  | nil => intro k hk; exact absurd hk (by simp)
  | cons ch rest ih =>
    intro k hk hk2
    cases k with
    | zero => simp [fallback_chapters]
    | succ k =>
      have h1 : start + (k + 1) = (start + 1) + k := by omega
      simp only [fallback_chapters, List.get_cons_succ, List.get_cons_succ, h1]
      exact ih (start + 1) k (Nat.lt_of_succ_lt_succ hk) _

/-- Claim C8: when script generation raises, the script stage does not
fail the job - it returns the deterministic minimal fallback script,
which has exactly one chapter per extracted unit (named `Section i`,
narration the unit's `chunk_summary` or `"Summary missing."`, empty
`spoken_math` and `figure_narration`) and a duration estimate of
`max(60, 60 * number of chapters)`. -/
theorem script_stage_fallback (e : String) (chunks : List ExtractChunk) (title : String) :
    script_stage (Except.error e) chunks title = simple_fallback_script chunks title ∧
    (simple_fallback_script chunks title).chapters.length = chunks.length ∧
    (simple_fallback_script chunks title).duration_estimate_sec =
      max 60 (60 * (chunks.length : Int)) ∧
    ∀ (k : Nat) (hk : k < chunks.length)
      (hk2 : k < (simple_fallback_script chunks title).chapters.length),
      (simple_fallback_script chunks title).chapters.get ⟨k, hk2⟩ =
        { name := "Section " ++ toString (k + 1),
          narration := summary_or_default (chunks.get ⟨k, hk⟩).chunk_summary,
          spoken_math := [], figure_narration := [] } := by
  refine ⟨rfl, fallback_chapters_length 1 chunks, ?_, ?_⟩
  · show max 60 (60 * ((fallback_chapters 1 chunks).length : Int)) = _
    rw [fallback_chapters_length 1 chunks]
  · intro k hk hk2
    have h := fallback_chapters_get 1 chunks k hk hk2
    rwa [Nat.add_comm 1 k] at h

/-- Witness for C8: the fallback on a concrete two-unit extraction, the
second unit lacking a summary. -/
theorem script_stage_fallback_witness :
    script_stage (Except.error "invalid JSON") extract_chunks_example "Doc.pdf" =
      simple_fallback_script extract_chunks_example "Doc.pdf" ∧
    (simple_fallback_script extract_chunks_example "Doc.pdf").chapters.length = 2 ∧
    (simple_fallback_script extract_chunks_example "Doc.pdf").duration_estimate_sec = 120 ∧
    (simple_fallback_script extract_chunks_example "Doc.pdf").chapters.get ⟨1, by decide⟩ =
      { name := "Section 2", narration := "Summary missing.",
        spoken_math := [], figure_narration := [] } := by
  have h := script_stage_fallback "invalid JSON" extract_chunks_example "Doc.pdf"
  refine ⟨h.1, h.2.1.trans (by decide), h.2.2.1.trans (by decide), ?_⟩
  have hg := h.2.2.2 1 (by decide) (by decide)
  exact hg.trans (by decide)

lemma dropWhile_head_false {α : Type} (p : α → Bool) :
    ∀ (l : List α) (c : α) (cs : List α), l.dropWhile p = c :: cs → p c = false := by
  intro l
  induction l with
  | nil => intro c cs h; simp [List.dropWhile] at h
  | cons a t ih =>
    intro c cs h
    rw [List.dropWhile_cons] at h
    by_cases hp : p a = true
    · rw [if_pos hp] at h
      exact ih c cs h
    · rw [if_neg hp] at h
      injection h with h1 h2
      subst h1
      exact Bool.eq_false_iff.mpr hp

lemma pyStripChars_nonempty (cs : List Char) (h : pyStripChars cs ≠ []) :
    ∃ c ∈ pyStripChars cs, Char.isWhitespace c = false := by
  unfold pyStripChars at h ⊢
  cases hE : (cs.dropWhile Char.isWhitespace).reverse.dropWhile Char.isWhitespace with
  | nil => rw [hE] at h; simp at h
  | cons c t =>
    refine ⟨c, ?_, dropWhile_head_false _ _ _ _ hE⟩
    simp

lemma mem_joinSep {sep : Char} :
    ∀ (ls : List (List Char)) (w : List Char), w ∈ ls → ∀ c ∈ w, c ∈ joinSep sep ls := by
  intro ls
  induction ls with
  | nil => simp
  | cons a t ih =>
    intro w hw c hc
    cases t with
    | nil =>
      rw [List.mem_singleton] at hw
      subst hw
      simpa [joinSep] using hc
    | cons b u =>
      rw [joinSep]
      rcases List.mem_cons.mp hw with hw | hw
      · subst hw; exact List.mem_append_left _ hc
      · exact List.mem_append_right _ (List.mem_cons_of_mem _ (ih _ hw c hc))

lemma splitRunsAux_ne_nil_of_acc (p : Char → Bool) :
    ∀ (l acc : List Char), acc ≠ [] → splitRunsAux p l acc ≠ [] := by
  intro l
  induction l with
  | nil => intro acc ha; simp [splitRunsAux, ha]
  | cons c t ih =>
    intro acc ha
    by_cases hp : p c
    · simp [splitRunsAux, hp, ha]
    · simpa [splitRunsAux, hp] using ih (c :: acc) (List.cons_ne_nil c acc)

lemma splitRunsAux_ne_nil_of_mem (p : Char → Bool) :
    ∀ (l acc : List Char) (c : Char), c ∈ l → p c = false → splitRunsAux p l acc ≠ [] := by
  intro l
  induction l with
  | nil => intro acc c hc; exact absurd hc (List.not_mem_nil c)
  | cons a t ih =>
    intro acc c hc hp
    by_cases hpa : p a
    · have hct : c ∈ t := by
        rcases List.mem_cons.mp hc with h | h
        · subst h; rw [hp] at hpa; exact absurd hpa (by simp)
        · exact h
      by_cases ha : acc = []
      · simpa [splitRunsAux, hpa, ha] using ih [] c hct hp
      · simp [splitRunsAux, hpa, ha]
    · simpa [splitRunsAux, hpa] using
        splitRunsAux_ne_nil_of_acc p t (a :: acc) (List.cons_ne_nil a acc)

lemma nil_not_mem_splitRunsAux (p : Char → Bool) :
    ∀ (l acc : List Char), [] ∉ splitRunsAux p l acc := by
  intro l
  induction l with
  | nil =>
    intro acc
    by_cases ha : acc = [] <;> simp [splitRunsAux, ha]
  | cons c t ih =>
    intro acc
    by_cases hp : p c
    · by_cases ha : acc = [] <;> simp [splitRunsAux, hp, ha, ih]
    · simpa [splitRunsAux, hp] using ih (c :: acc)

lemma normalize_ne_empty_of_mem (s : String) (c : Char) (hc : c ∈ s.data)
    (hw : Char.isWhitespace c = false) : normalize_whitespace s ≠ "" := by
  intro hEq
  have hdata : joinSep ' ' (splitRunsAux Char.isWhitespace s.data []) = [] :=
    congrArg String.data hEq
  cases hS : splitRunsAux Char.isWhitespace s.data [] with
  | nil => exact splitRunsAux_ne_nil_of_mem _ _ _ c hc hw hS
  | cons w ws =>
    cases ws with
    | nil =>
      rw [hS] at hdata
      simp only [joinSep] at hdata
      exact nil_not_mem_splitRunsAux _ _ _ (by rw [hS, hdata]; exact List.mem_singleton_self [])
    | cons x u =>
      rw [hS] at hdata
      simp [joinSep] at hdata

lemma spoken_math_lines_text_ne (ch : Chapter) (h : spoken_math_lines ch ≠ []) :
    normalize_whitespace (joinSpaceStr (spoken_math_lines ch)) ≠ "" := by
  obtain ⟨l, hl⟩ : ∃ l, l ∈ spoken_math_lines ch := by
    cases hS : spoken_math_lines ch with
    | nil => exact absurd hS h
    | cons a t => exact ⟨a, List.mem_cons_self a t⟩
  have hl0 := hl
  simp only [spoken_math_lines] at hl
  obtain ⟨raw, hrawmem, rfl⟩ := List.mem_map.mp hl
  have hq := (List.mem_filter.mp hrawmem).2
  have hstrip : pyStrip raw ≠ "" := (of_decide_eq_true hq).2
  have hchars : pyStripChars raw.data ≠ [] := by
    intro hnil
    apply hstrip
    show String.mk (pyStripChars raw.data) = ""
    rw [hnil]
  obtain ⟨c, hcmem, hcw⟩ := pyStripChars_nonempty raw.data hchars
  have hjoin : c ∈ (joinSpaceStr (spoken_math_lines ch)).data :=
    mem_joinSep _ _ (List.mem_map_of_mem String.data hl0) c hcmem
  exact normalize_ne_empty_of_mem _ c hjoin hcw

lemma narration_loop_fields (name : String) (wps : ℚ) (target : Int) :
    ∀ (ss cur : List String) (cid : Nat) (c : LectureChunk),
      c ∈ narration_loop name wps target ss cur cid →
      c.spoken_math = none ∧ c.section_name = some name := by
  intro ss
  induction ss with
  | nil =>
    intro cur cid c hc
    by_cases h : cur = [] <;> simp [narration_loop, h] at hc
    subst hc
    exact ⟨rfl, rfl⟩
  | cons s rest ih =>
    intro cur cid c hc
    by_cases h : target ≤ estimate_seconds (joinSpaceStr (cur ++ [s])) wps <;>
      simp only [narration_loop, h, if_true, if_false, List.mem_cons, ite_true,
        ite_false] at hc
    · rcases hc with rfl | hc
      · exact ⟨rfl, rfl⟩
      · exact ih _ _ _ hc
    · exact ih _ _ _ hc

lemma generate_aux_decompose (wps : ℚ) (target : Int) :
    ∀ (secs : List (String × String × List String)) (cid k : Nat)
      (hk : k < secs.length),
      ∃ pre post cid2,
        generate_aux wps target secs cid =
          pre ++ section_chunks wps target (secs.get ⟨k, hk⟩) cid2 ++ post := by
  intro secs
  induction secs with
  | nil => intro cid k hk; exact absurd hk (by simp)
  | cons sec rest ih =>
    intro cid k hk
    cases k with
    | zero =>
      exact ⟨[], generate_aux wps target rest
        (cid + (section_chunks wps target sec cid).length), cid, by
          rw [generate_aux]; simp⟩
    | succ k =>
      obtain ⟨pre, post, cid2, h⟩ :=
        ih (cid + (section_chunks wps target sec cid).length) k (Nat.lt_of_succ_lt_succ hk)
      exact ⟨section_chunks wps target sec cid ++ pre, post, cid2, by
        rw [generate_aux, h]; simp [List.append_assoc]⟩

lemma iter_sections_get_chapter (script : LectureScript) (k : Nat)
    (hk : k < script.chapters.length) (hk2 : k < (iter_sections script).length) :
    (iter_sections script).get ⟨k, hk2⟩ =
      chapter_section (script.chapters.get ⟨k, hk⟩) := by
  have hmap : k < (script.chapters.map chapter_section).length := by simpa using hk
  show (script.chapters.map chapter_section ++ recap_sections script).get ⟨k, hk2⟩ = _
  rw [List.get_eq_getElem, List.getElem_append_left hmap, List.getElem_map,
    List.get_eq_getElem]

/-- Counterexample to the empty-narration clause of claim C7 as stated:
a chapter whose `narration` field is empty but which carries a figure
narration contributes narration chunks (the figure text is folded into
the section text), so "a chapter with empty narration contributes no
narration chunks" fails. -/
theorem empty_narration_chapter_emits_chunks :
    figure_only_chapter.narration = "" ∧
    generate_lecture_chunks figure_only_script (some 15) (some (mkRat 5 2)) {} ≠ [] ∧
    ∀ c ∈ generate_lecture_chunks figure_only_script (some 15) (some (mkRat 5 2)) {},
      c.spoken_math = none := by
  decide

/-- Claim C7 (amended): for every chapter, the chunks
`generate_lecture_chunks` emits for it form a contiguous block
`narr ++ mpart`: the narration chunks (all with `spoken_math = none` and
the chapter's section name) followed - never interleaved - by at most
one math chunk; `mpart` is empty exactly when the chapter has no
spoken-math lines, and otherwise is the single chunk carrying those
lines with duration `estimate_seconds` over their concatenation.  A
chapter whose combined narration text (chapter narration plus figure
narration) is empty contributes no narration chunks; an empty
`narration` field alone does not suffice, since figure narration also
produces narration chunks. -/
theorem chapter_math_chunk_separate (script : LectureScript) (ts : Option Int)
    (ws : Option ℚ) (st : ChunkSettings) (k : Nat)
    (hk : k < script.chapters.length) :
    ∃ pre narr mpart post cid,
      generate_lecture_chunks script ts ws st = pre ++ (narr ++ mpart) ++ post ∧
      narr ++ mpart =
        section_chunks (pyOrRat ws st.chunk_words_per_second)
          (pyOrInt ts st.chunk_target_seconds)
          (chapter_section (script.chapters.get ⟨k, hk⟩)) cid ∧
      (∀ c ∈ narr, c.spoken_math = none ∧
        c.section_name = some (script.chapters.get ⟨k, hk⟩).name) ∧
      (spoken_math_lines (script.chapters.get ⟨k, hk⟩) = [] → mpart = []) ∧
      (spoken_math_lines (script.chapters.get ⟨k, hk⟩) ≠ [] →
        mpart = [math_chunk (cid + narr.length)
          (spoken_math_lines (script.chapters.get ⟨k, hk⟩))
          (pyOrRat ws st.chunk_words_per_second)
          (script.chapters.get ⟨k, hk⟩).name]) ∧
      ((chapter_section (script.chapters.get ⟨k, hk⟩)).2.1 = "" → narr = []) := by
  have hk2 : k < (iter_sections script).length := by
    simp only [iter_sections, List.length_append, List.length_map]
    omega
  obtain ⟨pre, post, cid2, hdec⟩ :=
    generate_aux_decompose (pyOrRat ws st.chunk_words_per_second)
      (pyOrInt ts st.chunk_target_seconds) (iter_sections script) 0 k hk2
  rw [iter_sections_get_chapter script k hk hk2] at hdec
  refine ⟨pre,
    narration_part (pyOrRat ws st.chunk_words_per_second)
      (pyOrInt ts st.chunk_target_seconds)
      (chapter_section (script.chapters.get ⟨k, hk⟩)) cid2,
    math_part (pyOrRat ws st.chunk_words_per_second)
      (chapter_section (script.chapters.get ⟨k, hk⟩))
      (cid2 + (narration_part (pyOrRat ws st.chunk_words_per_second)
        (pyOrInt ts st.chunk_target_seconds)
        (chapter_section (script.chapters.get ⟨k, hk⟩)) cid2).length),
    post, cid2, hdec, rfl, ?_, ?_, ?_, ?_⟩
  · intro c hc
    unfold narration_part at hc
    by_cases ht : (chapter_section (script.chapters.get ⟨k, hk⟩)).2.1 ≠ ""
    · rw [if_pos ht] at hc
      exact narration_loop_fields _ _ _ _ _ _ c hc
    · rw [if_neg ht] at hc
      cases hc
  · intro hml
    unfold math_part
    have h0 : ¬ ((chapter_section (script.chapters.get ⟨k, hk⟩)).2.2 ≠ []) := by
      intro hne
      exact hne hml
    rw [if_neg h0]
  · intro hml
    unfold math_part
    have h2 : (chapter_section (script.chapters.get ⟨k, hk⟩)).2.2 ≠ [] := hml
    have h3 : normalize_whitespace
        (joinSpaceStr (chapter_section (script.chapters.get ⟨k, hk⟩)).2.2) ≠ "" :=
      spoken_math_lines_text_ne _ hml
    rw [if_pos h2, if_pos h3]
    rfl
  · intro htext
    unfold narration_part
    rw [if_neg (by simpa using htext)]

/-- Witness for C7 (amended): the one-chapter script with a spoken-math
entry, at chapter index 0. -/
theorem chapter_math_chunk_separate_witness :
    ∃ pre narr mpart post cid,
      generate_lecture_chunks math_script_example (some 15) (some (mkRat 5 2)) {} =
        pre ++ (narr ++ mpart) ++ post ∧
      narr ++ mpart =
        section_chunks
          (pyOrRat (some (mkRat 5 2)) ({} : ChunkSettings).chunk_words_per_second)
          (pyOrInt (some 15) ({} : ChunkSettings).chunk_target_seconds)
          (chapter_section (math_script_example.chapters.get ⟨0, by decide⟩)) cid ∧
      (∀ c ∈ narr, c.spoken_math = none ∧
        c.section_name = some (math_script_example.chapters.get ⟨0, by decide⟩).name) ∧
      (spoken_math_lines (math_script_example.chapters.get ⟨0, by decide⟩) = [] →
        mpart = []) ∧
      (spoken_math_lines (math_script_example.chapters.get ⟨0, by decide⟩) ≠ [] →
        mpart = [math_chunk (cid + narr.length)
          (spoken_math_lines (math_script_example.chapters.get ⟨0, by decide⟩))
          (pyOrRat (some (mkRat 5 2)) ({} : ChunkSettings).chunk_words_per_second)
          (math_script_example.chapters.get ⟨0, by decide⟩).name]) ∧
      ((chapter_section (math_script_example.chapters.get ⟨0, by decide⟩)).2.1 = "" →
        narr = []) :=
  chapter_math_chunk_separate math_script_example (some 15) (some (mkRat 5 2)) {} 0
    (by decide)

end LectureToAudio
